import Mathlib

set_option linter.unusedVariables false

/-!
Verification of the file-staging and resilient-copy subsystem of GPLtools
(`stageFiles.py`, `fileOps.py`, `fsFileOps.py`, `xrootdFileOps.py`).

External effects (`os`, `shutil`, the `xrdcp`/`xrd.pl` commands, the regex
engine) are abstracted as oracle parameters: every outcome an external call can
produce is a free input of the model, and the model records the observable
actions (copy invocations, waits, directory removals) that the Python code
would perform.
-/

namespace GPL

/-- Python exceptions that can escape the modelled functions. -/
inductive PyErr
  | nameError
  | osError
  deriving DecidableEq

/-- Boolean equality on `Except`, for deciding equalities of results. -/
def exceptBEq {ε α : Type} [DecidableEq ε] [DecidableEq α] :
    Except ε α → Except ε α → Bool
  | .error x, .error y => decide (x = y)
  | .ok x, .ok y => decide (x = y)
  | _, _ => false

instance {ε α : Type} [DecidableEq ε] [DecidableEq α] : DecidableEq (Except ε α) :=
  fun a b =>
    decidable_of_iff (exceptBEq a b = true) (by
      cases a <;> cases b <;> simp [exceptBEq])

/-- The path separator character. -/
def sep : Char := Char.ofNat 47

/-- `os.path.basename`: final path component (text after the last slash),
computed on the character list so that it evaluates inside the kernel. -/
def osPathBasename (p : String) : String :=
  String.mk ((p.data.reverse.takeWhile (fun c => c ≠ sep)).reverse)

/-- `os.path.join` for the two-argument case used by `stagedName` (the
trailing-separator test is spelled on the character list so that it
evaluates inside the kernel). -/
def osPathJoin (a b : String) : String :=
  if a = "" then b
  else if a.data.getLast? = some sep then a ++ b
  else a ++ "/" ++ b

/-- The URI marker routing a path to the xrootd backend (`xrootStart`). -/
def xrootStart : String := "root:"

/-- `fileOps.isOnXrootd`: a path is remote iff it starts with `root:` (the
test is spelled on the character lists so that it evaluates inside the
kernel). -/
def isOnXrootd (fileName : String) : Bool :=
  xrootStart.data.isPrefixOf fileName.data

namespace fsFileOps

/-- `fsFileOps.tempName`: destination plus the literal suffix `.part`. -/
def tempName (fileName : String) : String :=
  fileName ++ ".part"

end fsFileOps

namespace xrootdFileOps

/-- `xrootdFileOps.tempName`: the file name itself, unchanged. -/
def tempName (fileName : String) : String :=
  fileName

end xrootdFileOps

namespace fileOps

/-- `fileOps.maxtry`, the default attempt bound. -/
def maxtry : Nat := 5

/-- `fileOps.tempName` is a generated wrapper: it dispatches on its own
argument, so the temp name of a remote destination comes from the xrootd
backend and the temp name of a local destination from the filesystem one. -/
def tempName (fileName : String) : String :=
  if isOnXrootd fileName then xrootdFileOps.tempName fileName
  else fsFileOps.tempName fileName

/-- Outcome of the `try:` block of one attempt of `fileOps.copy`
(`remove(toFile)`, `remove(tn)`, `mkdirFor(tn)`, `impl.copy(fromFile, tn)`):
either an `OSError` is raised before `impl.copy` runs, or `impl.copy` itself
raises, or the block completes with the two accumulated status codes. -/
inductive TryOutcome
  | raiseBefore
  | raiseDuring
  | done (mkdirRc implCopyRc : Nat)
  deriving DecidableEq

/-- Oracle for one attempt of `fileOps.copy`: what the external world answers
to `getSize(fromFile)`, the `try:` block, `getSize(tn)` and `unTemp(toFile)`
during that attempt. -/
structure Attempt where
  fromSize : Option Nat
  tryOut : TryOutcome
  tnSize : Option Nat
  unTempRaises : Bool
  deriving DecidableEq

/-- What one loop body of `fileOps.copy` does with its attempt oracle:
`cont rc c` is a `continue` with the given `rc` after `c` calls of
`impl.copy`, `brk` is the successful `break` (with `rc = 0`), `raised` is an
exception escaping from `unTemp`. -/
inductive StepRes
  | cont (rc : Nat) (calls : Nat)
  | brk (calls : Nat)
  | raised (calls : Nat)
  deriving DecidableEq

/-- Number of `impl.copy` invocations recorded in a step result. -/
def StepRes.callsOf : StepRes → Nat
  | .cont _ c => c
  | .brk c => c
  | .raised c => c

/-- One loop body of `fileOps.copy` (lines 91-144): check the source size,
run the `try:` block, verify the destination size, un-temp the file. -/
def attemptStep (a : Attempt) : StepRes :=
  match a.fromSize with
  | none => .cont 1 0
  | some fromSize =>
    match a.tryOut with
    | .raiseBefore => .cont 1 0
    | .raiseDuring => .cont 1 1
    | .done mkdirRc implCopyRc =>
      let rc := mkdirRc ||| implCopyRc
      if rc ≠ 0 then .cont rc 1
      else
        match a.tnSize with
        | none => .cont 1 1
        | some toSize =>
          if toSize ≠ fromSize then .cont 1 1
          else if a.unTempRaises then .raised 1
          else .brk 1

/-- Result of the whole `for mytry in range(maxTry)` loop. -/
inductive LoopRes
  | exhausted (rcLast : Nat)
  | broke
  | raised
  deriving DecidableEq

/-- Aggregate observables of the retry loop. -/
structure LoopOut where
  res : LoopRes
  calls : Nat
  waits : Nat
  deriving DecidableEq

/-- The retry loop of `fileOps.copy`: `fuel` attempts remain, `i` is the
current value of `mytry`, `rcIn` the `rc` left by the previous attempt; a
`waitABit()` precedes every attempt with `mytry` nonzero. -/
def copyLoop (env : Nat → Attempt) : Nat → Nat → Nat → LoopOut
  | 0, _, rcIn => ⟨.exhausted rcIn, 0, 0⟩
  | fuel+1, i, _ =>
    let w := if i ≠ 0 then 1 else 0
    match attemptStep (env i) with
    | .cont rc c =>
      let out := copyLoop env fuel (i+1) rc
      ⟨out.res, c + out.calls, w + out.waits⟩
    | .brk c => ⟨.broke, c, w⟩
    | .raised c => ⟨.raised, c, w⟩

/-- Result of `fileOps.copy`: the returned status (or escaping exception),
the number of underlying `impl.copy` attempts, the number of backoff waits. -/
structure CopyOut where
  res : Except PyErr Nat
  implCalls : Nat
  waits : Nat
  deriving DecidableEq

/-- `fileOps.copy` (lines 64-160).  The self-copy guard returns 0 at once.
Otherwise the retry loop runs for `maxTry` attempts (default `maxtry = 5`).
An exception from `unTemp` propagates; an exhausted loop returns 1; a broken
loop returns 0.  With `maxTry = 0` the success logging reads the loop
variable `mytry`, which was never bound, raising `NameError`. -/
def copy (env : Nat → Attempt) (fromFile toFile : String) (maxTry : Option Nat) :
    CopyOut :=
  let mt := maxTry.getD maxtry
  if toFile = fromFile then ⟨.ok 0, 0, 0⟩
  else
    let out := copyLoop env mt 0 0
    match out.res with
    | .raised => ⟨.error .osError, out.calls, out.waits⟩
    | .broke => ⟨.ok 0, out.calls, out.waits⟩
    | .exhausted rc =>
      if rc ≠ 0 then ⟨.ok 1, out.calls, out.waits⟩
      else ⟨.error .nameError, out.calls, out.waits⟩

/-- An attempt whose size verification fails: the source exists, the `try:`
block completes cleanly, the destination exists but its size differs. -/
def mismatchAttempt (a : Attempt) : Prop :=
  a.fromSize.isSome ∧ a.tryOut = .done 0 0 ∧ a.tnSize.isSome ∧ a.tnSize ≠ a.fromSize

/-- An attempt that verifies: source and temp destination report one size. -/
def verifiedOk (a : Attempt) : Prop :=
  a.fromSize.isSome ∧ a.tnSize = a.fromSize

/-- An attempt that succeeds outright: clean `try:` block, matching sizes,
successful rename. -/
def goodAttempt (a : Attempt) : Prop :=
  a.fromSize.isSome ∧ a.tryOut = .done 0 0 ∧ a.tnSize = a.fromSize ∧
    a.unTempRaises = false

instance (a : Attempt) : Decidable (mismatchAttempt a) := by
  unfold mismatchAttempt; infer_instance

instance (a : Attempt) : Decidable (verifiedOk a) := by
  unfold verifiedOk; infer_instance

instance (a : Attempt) : Decidable (goodAttempt a) := by
  unfold goodAttempt; infer_instance

end fileOps

namespace stageFiles

/-- `stageFiles.maxtry`, the attempt bound shared by `fileCopy` and
`xrootdCopy`. -/
def maxtry : Nat := 5

/-- Oracle for one `try:` body of the retry loop of `stageFiles.fileCopy`
(`mkdirFor`, `shutil.copy` to the `.part` name, `os.rename`): `raises` is
true when any of them raises.  A completed body always ends with `rc = 0`
and `break`, so the statuses accumulated before it are unobservable. -/
structure FCAttempt where
  raises : Bool
  deriving DecidableEq

/-- Oracle for one run of `stageFiles.fileCopy`: the size reported for the
source (`none` when `os.access(fromFile, os.R_OK)` fails) and the outcome of
each loop body, indexed by `mytry` (starting at 1). -/
structure FCEnv where
  srcSize : Option Nat
  attempt : Nat → FCAttempt

/-- Result of `stageFiles.fileCopy`: returned status, number of `try:`
bodies executed (each performs one underlying `shutil.copy` attempt unless
it raised earlier), number of `waitABit()` calls. -/
structure FCOut where
  rc : Nat
  tries : Nat
  waits : Nat
  deriving DecidableEq

/-- The `while mytry < maxtry` loop of `stageFiles.fileCopy`: a failed body
waits, increments `mytry`, and sets `rc = 1` exactly when `mytry` reaches
`maxtry`; a completed body sets `rc = 0` and breaks. -/
def fileCopyLoop (env : Nat → FCAttempt) : Nat → Nat → Nat → Nat × Nat × Nat
  | 0, _, rcIn => (rcIn, 0, 0)
  | fuel+1, mytry, rcIn =>
    if (env mytry).raises then
      let rcNext := if fuel = 0 then 1 else rcIn
      let (rc, tries, waits) := fileCopyLoop env fuel (mytry+1) rcNext
      (rc, tries + 1, waits + 1)
    else
      (0, 1, 0)

/-- `stageFiles.fileCopy` (lines 663-722): an unreadable source returns 1 at
once, before the loop; otherwise the loop starts at `mytry = 1` and runs at
most `maxtry - 1` bodies. -/
def fileCopy (env : FCEnv) (fromFile toFile : String) : FCOut :=
  match env.srcSize with
  | none => ⟨1, 0, 0⟩
  | some _ =>
    let (rc, tries, waits) := fileCopyLoop env.attempt (maxtry - 1) 1 0
    ⟨rc, tries, waits⟩

/-- Oracle for one run of `stageFiles.xrootdCopy`.  `srcOk` and `destOk` are
the existence checks (`xrd.pl -w stat` for `root:` paths, `os.access`
otherwise); `xrdcpRc` is the status of the `xrdcp` command at each `mytry`.
`srcSize` and `destSize` are the actual file sizes: `xrootdCopy` never reads
them (it verifies bare existence only), so any pair is consistent with any
run. -/
structure XREnv where
  srcOk : Bool
  xrdcpRc : Nat → Nat
  destOk : Bool
  srcSize : Option Nat
  destSize : Option Nat

/-- Result of `stageFiles.xrootdCopy`: returned status, `xrdcp` invocations,
`waitABit()` calls. -/
structure XROut where
  rc : Nat
  xrdcpCalls : Nat
  waits : Nat
  deriving DecidableEq

/-- The `while mytry <= maxtry` loop of `xrootdCopy`: a wait precedes every
attempt after the first; a failing `xrdcp` moves to the next attempt; the
`else:` clause of the loop (no `break` in `maxtry` attempts) yields `none`. -/
def xrdLoop (rcOf : Nat → Nat) : Nat → Nat → Option Nat × Nat × Nat
  | 0, _ => (none, 0, 0)
  | fuel+1, mytry =>
    let w := if 1 < mytry then 1 else 0
    if rcOf mytry ≠ 0 then
      let (res, calls, waits) := xrdLoop rcOf fuel (mytry+1)
      (res, calls + 1, w + waits)
    else
      (some 0, 1, w)

/-- `stageFiles.xrootdCopy` (lines 582-655): source existence check before
the loop (failure returns 1 with no attempt and no wait), the `xrdcp` retry
loop, then a bare existence check of the destination. -/
def xrootdCopy (env : XREnv) (fromFile toFile : String) : XROut :=
  if env.srcOk = false then ⟨1, 0, 0⟩
  else
    match xrdLoop env.xrdcpRc maxtry 1 with
    | (none, calls, waits) => ⟨1, calls, waits⟩
    | (some _, calls, waits) =>
      if env.destOk = false then ⟨1, calls, waits⟩ else ⟨0, calls, waits⟩

/-- Joint oracle for `stageFiles.copy`: whichever branch the path syntax
selects consumes its half. -/
structure SCEnv where
  fc : FCEnv
  xr : XREnv

/-- Result of `stageFiles.copy`: status, underlying copy-tool invocations,
waits. -/
structure SCOut where
  rc : Nat
  underlyingCalls : Nat
  waits : Nat
  deriving DecidableEq

/-- `stageFiles.copy` (lines 566-579): self-copy guard, then dispatch on the
`root:` marker. -/
def copy (env : SCEnv) (fromFile toFile : String) : SCOut :=
  if toFile = fromFile then ⟨0, 0, 0⟩
  else if isOnXrootd fromFile || isOnXrootd toFile then
    let o := xrootdCopy env.xr fromFile toFile
    ⟨o.rc, o.xrdcpCalls, o.waits⟩
  else
    let o := fileCopy env.fc fromFile toFile
    ⟨o.rc, o.tries, o.waits⟩

/-- A `StagedFile` record: original source (if staged in), working location,
remaining final destinations, cleanup policy, and the stage-in guard flag. -/
structure StagedFile where
  source : Option String
  location : String
  destinations : List String
  cleanup : Bool
  started : Bool
  deriving DecidableEq

/-- Python truthiness of the `source` attribute (`None` and the empty string are falsy). -/
def truthyStr : Option String → Bool
  | none => false
  | some s => s ≠ ""

/-- `StagedFile.__init__` (lines 508-523): copy the destination list; if the
working location occurs in it, `list.remove` drops its first occurrence and
`cleanup` is forced off.  `start()` runs when `autoStart` is set, which
leaves `started = True` (and `started = False` otherwise); the stage-in copy
it may perform does not touch these fields. -/
def StagedFile.init (location : String) (source : Option String)
    (destinations : List String) (cleanup : Bool) (autoStart : Bool) :
    StagedFile :=
  let dc :=
    if location ∈ destinations then (destinations.erase location, false)
    else (destinations, cleanup)
  { source := source, location := location, destinations := dc.1,
    cleanup := dc.2, started := autoStart }

/-- `StagedFile.start` (lines 534-541) over an oracle giving the status the
`copy` call would return: yields the new record, the returned `rc`, and
whether the underlying stage-in copy was performed. -/
def StagedFile.startE (copyRc : Nat) (sf : StagedFile) :
    StagedFile × Nat × Bool :=
  if truthyStr sf.source && (sf.location != sf.source.getD "") && !sf.started then
    ({ sf with started := true }, copyRc, true)
  else
    ({ sf with started := true }, 0, false)

/-- `n` successive calls of `start()` on one record, with an oracle giving
the status of each potential copy; returns the final record and the total
number of underlying copies performed. -/
def StagedFile.startN (rcs : Nat → Nat) (sf : StagedFile) : Nat → StagedFile × Nat
  | 0 => (sf, 0)
  | n+1 =>
    let r := StagedFile.startE (rcs 0) sf
    let rest := StagedFile.startN (fun i => rcs (i+1)) r.1 n
    (rest.1, (if r.2.2 then 1 else 0) + rest.2)

/-- Observable filesystem actions of teardown, for the frame conditions. -/
inductive Ev
  | copyEv (src dst : String)
  | removeFileEv (p : String)
  | rmdirEv (d : String)
  | rmtreeEv (d : String)
  deriving DecidableEq

/-- Accumulated status and action trace of a teardown step. -/
structure FinOut where
  rc : Nat
  trace : List Ev
  deriving DecidableEq

/-- The `for dest in self.destinations` loop of `StagedFile.finish`: one
`copy(self.location, dest)` per destination, statuses bitwise-ORed. -/
def copyDests (location : String) (env : Nat → stageFiles.SCEnv) :
    List String → Nat → Nat × List Ev
  | [], _ => (0, [])
  | d :: rest, i =>
    let o := stageFiles.copy (env i) location d
    let r := copyDests location env rest (i+1)
    (o.rc ||| r.1, Ev.copyEv location d :: r.2)

/-- `StagedFile.finish` (lines 543-556): copy the working file to every
destination, then delete the working copy when `keep` is unset, `cleanup` is
set and the file is writable (`locWritable` is the `os.access(..., W_OK)`
answer). -/
def StagedFile.finishE (env : Nat → stageFiles.SCEnv) (locWritable keep : Bool)
    (sf : StagedFile) : FinOut :=
  let r := copyDests sf.location env sf.destinations 0
  if !keep && sf.cleanup && locWritable then
    ⟨r.1, r.2 ++ [Ev.removeFileEv sf.location]⟩
  else
    ⟨r.1, r.2⟩

/-- The attributes of a `StageSet`, as assigned by `__init__`/`setup`/`reset`. -/
structure StageSet where
  stageDir : String
  setupFlag : Nat
  setupOK : Nat
  excludeIn : Option String
  excludeOut : Option String
  autoStart : Bool
  stagedFiles : List StagedFile
  numIn : Nat
  numOut : Nat
  numMod : Nat
  xrootdIgnoreErrors : Bool
  deriving DecidableEq

/-- `StageSet.reset` (lines 188-195). -/
def StageSet.reset (s : StageSet) : StageSet :=
  { s with stagedFiles := [], numIn := 0, numOut := 0, numMod := 0,
           xrootdIgnoreErrors := false }

/-- Oracle for `StageSet.setup`: whether the staging directory already
exists (`os.access(..., F_OK)`) and whether `os.makedirs` succeeds. -/
structure SetupEnv where
  dirExists : Bool
  makedirsOk : Bool
  deriving DecidableEq

/-- `StageSet.setup` (lines 154-185): mark the set usable when the directory
exists or can be created, otherwise blank the directory and disable staging;
always reset the bookkeeping and set `setupFlag`. -/
def StageSet.setupM (env : SetupEnv) (s : StageSet) : StageSet :=
  let s1 :=
    if env.dirExists then { s with setupOK := 1 }
    else if env.makedirsOk then { s with setupOK := 1 }
    else { s with stageDir := "", setupOK := 0 }
  { s1.reset with setupFlag := 1 }

/-- `StageSet.stagedName` (lines 409-416). -/
def StageSet.stagedName (s : StageSet) (fileName : String) : String :=
  osPathJoin s.stageDir (osPathBasename fileName)

/-- `self.excludeIn and re.search(self.excludeIn, f)` with the regex engine
abstracted as `reSearch`: a `None` or empty pattern is falsy and short-
circuits the match. -/
def excludeMatches (reSearch : String → String → Bool) :
    Option String → String → Bool
  | none, _ => false
  | some p, f => if p = "" then false else reSearch p f

/-- `StageSet.stageIn` (lines 201-228): run `setup()` if it has not run,
pass the path through when staging is disabled or the exclude-in pattern
matches, otherwise append an auto-started `StagedFile` and return the staged
name. -/
def StageSet.stageInM (reSearch : String → String → Bool) (env : SetupEnv)
    (s : StageSet) (inFile : String) : StageSet × String :=
  let s := if s.setupFlag ≠ 1 then s.setupM env else s
  if s.setupOK ≠ 1 then (s, inFile)
  else if excludeMatches reSearch s.excludeIn inFile then (s, inFile)
  else
    let stageName := s.stagedName inFile
    let inStage := StagedFile.init stageName (some inFile) [] true s.autoStart
    ({ s with numIn := s.numIn + 1,
              stagedFiles := s.stagedFiles ++ [inStage] }, stageName)

/-- `StageSet.stageOut` (lines 231-269).  Line 236 reads `if self.setupFlag
<> 1: setup()` — a bare `setup()`, not `self.setup()`; no module-level
`setup` exists in `stageFiles.py`, so that branch raises `NameError`.
Otherwise: an empty argument list returns `""` untouched; a disabled set or
an exclude-out match keeps the primary name with `cleanup = False`; the
`StagedFile` is always created (destinations = all arguments) and appended,
and `numOut` is always incremented. -/
def StageSet.stageOutM (reSearch : String → String → Bool) (s : StageSet)
    (args : List String) : Except PyErr (StageSet × String) :=
  if s.setupFlag ≠ 1 then .error .nameError
  else
    match args with
    | [] => .ok (s, "")
    | outFile :: _ =>
      let sc :=
        if s.setupOK ≠ 1 then (outFile, false)
        else if excludeMatches reSearch s.excludeOut outFile then (outFile, false)
        else (s.stagedName outFile, true)
      let outStage := StagedFile.init sc.1 none args sc.2 true
      .ok ({ s with stagedFiles := s.stagedFiles ++ [outStage],
                    numOut := s.numOut + 1 }, sc.1)

/-- `StageSet.stageMod` (lines 278-305): like `stageIn`, but the created
record also carries the original path as its one destination. -/
def StageSet.stageModM (reSearch : String → String → Bool) (env : SetupEnv)
    (s : StageSet) (modFile : String) : StageSet × String :=
  let s := if s.setupFlag ≠ 1 then s.setupM env else s
  if s.setupOK ≠ 1 then (s, modFile)
  else if excludeMatches reSearch s.excludeIn modFile then (s, modFile)
  else
    let stageName := s.stagedName modFile
    let modStage := StagedFile.init stageName (some modFile) [modFile] true
      s.autoStart
    ({ s with numMod := s.numMod + 1,
              stagedFiles := s.stagedFiles ++ [modStage] }, stageName)

/-- Oracle for `_removeDir`: whether `os.rmdir` succeeds, and whether the
fallback `shutil.rmtree` succeeds. -/
structure RDEnv where
  rmdirOk : Bool
  rmtreeOk : Bool
  deriving DecidableEq

/-- `StageSet._removeDir` (lines 377-405).  The local `rc` is assigned only
inside the `if self.setupOK <> 0:` branch; with `setupOK = 0` the trailing
`return rc` reads an unbound local and raises (`UnboundLocalError`, a
`NameError`), after attempting no removal. -/
def StageSet.removeDirM (env : RDEnv) (s : StageSet) :
    Except PyErr (StageSet × Nat × List Ev) :=
  if s.setupOK ≠ 0 then
    let rt :=
      if env.rmdirOk then (0, [Ev.rmdirEv s.stageDir])
      else if env.rmtreeOk then (0, [Ev.rmdirEv s.stageDir, Ev.rmtreeEv s.stageDir])
      else (2, [Ev.rmdirEv s.stageDir, Ev.rmtreeEv s.stageDir])
    .ok ({ s.reset with setupFlag := 0, setupOK := 0 }, rt.1, rt.2)
  else
    .error .nameError

/-- Full oracle for `StageSet.finish`: per-member, per-destination copy
oracles, per-member writability of the working copy, and the removal
oracle. -/
structure FinishEnv where
  memberEnv : Nat → Nat → stageFiles.SCEnv
  wOk : Nat → Bool
  rd : RDEnv

/-- The `for stagee in self.stagedFiles` loop of `finish`. -/
def finishMembers (env : Nat → Nat → stageFiles.SCEnv) (wOk : Nat → Bool)
    (keep : Bool) : List StagedFile → Nat → Nat × List Ev
  | [], _ => (0, [])
  | sf :: rest, i =>
    let o := StagedFile.finishE (env i) (wOk i) keep sf
    let r := finishMembers env wOk keep rest (i+1)
    (o.rc ||| r.1, o.trace ++ r.2)

/-- `StageSet.finish` (lines 326-374): `"wipe"` returns `_removeDir()` at
once, before any member is drained; otherwise every member is drained with
`keep` set iff the option is `"keep"`; `"keep"` returns with the
bookkeeping intact, `"clean"` after a reset; the full (empty) mode also
removes the staging directory when staging was enabled and clears the
setup flags. -/
def StageSet.finishM (fenv : FinishEnv) (s : StageSet) (option : String) :
    Except PyErr (StageSet × Nat × List Ev) :=
  if option = "wipe" then s.removeDirM fenv.rd
  else
    let keep := option = "keep"
    let mr := finishMembers fenv.memberEnv fenv.wOk keep s.stagedFiles 0
    if option = "keep" then .ok (s, mr.1, mr.2)
    else
      let s1 := s.reset
      if option = "clean" then .ok (s1, mr.1, mr.2)
      else
        if s1.setupOK ≠ 0 then
          match s1.removeDirM fenv.rd with
          | .ok (s2, rc2, tr2) =>
            .ok ({ s2.reset with setupFlag := 0, setupOK := 0 },
                 mr.1 ||| rc2, mr.2 ++ tr2)
          | .error e => .error e
        else
          .ok ({ s1.reset with setupFlag := 0, setupOK := 0 }, mr.1, mr.2)

/-- The action trace of a teardown result (empty when it raised). -/
def traceOf : Except PyErr (StageSet × Nat × List Ev) → List Ev
  | .error _ => []
  | .ok (_, _, tr) => tr

end stageFiles

namespace fileOps

/-- A concrete attempt oracle: source of size 5, clean `try:` block, but the
written temp file reports size 3. -/
def attMis : Attempt := ⟨some 5, .done 0 0, some 3, false⟩

/-- A concrete attempt oracle: source of size 5, clean `try:` block, temp
file of size 5, clean rename. -/
def attGood : Attempt := ⟨some 5, .done 0 0, some 5, false⟩

/-- A concrete attempt oracle: `getSize(fromFile)` reports the source
missing. -/
def attMiss : Attempt := ⟨none, .done 0 0, none, false⟩

/-- A world in which every attempt hits the size mismatch. -/
def envMis : Nat → Attempt := fun _ => attMis

/-- A world in which the source never exists. -/
def envMiss : Nat → Attempt := fun _ => attMiss

/-- A world with a size mismatch on the first attempt and a fully successful
second attempt. -/
def envRetry : Nat → Attempt := fun i => if i = 0 then attMis else attGood

end fileOps

namespace stageFiles

/-- A regex engine that matches nothing. -/
def rFalse : String → String → Bool := fun _ _ => false

/-- A quiet local-copy world: readable source, every attempt completes. -/
def fcQuiet : FCEnv := ⟨some 1, fun _ => ⟨false⟩⟩

/-- A quiet xrootd world. -/
def xrQuiet : XREnv := ⟨true, fun _ => 0, true, some 1, some 1⟩

/-- A quiet combined copy world. -/
def scQuiet : SCEnv := ⟨fcQuiet, xrQuiet⟩

/-- A quiet teardown world: copies succeed, working files are writable, the
staging directory is removed by `os.rmdir`. -/
def fenvQuiet : FinishEnv := ⟨fun _ _ => scQuiet, fun _ => true, ⟨true, true⟩⟩

/-- A setup world in which the staging directory already exists. -/
def envSE : SetupEnv := ⟨true, true⟩

/-- An xrootd world in which `xrdcp` reports success and the destination
exists, but the remote file ends up with 3 bytes while the source has 5:
`xrootdCopy` checks bare existence only, so this run is consistent. -/
def xrShort : XREnv := ⟨true, fun _ => 0, true, some 5, some 3⟩

/-- Combined copy world built on `xrShort`. -/
def scShort : SCEnv := ⟨fcQuiet, xrShort⟩

/-- A staged-out file whose one destination lives on xrootd. -/
def sfRemote : StagedFile := ⟨none, "/stage/f", ["root://srv/f"], true, true⟩

/-- A healthy `StageSet` after a successful `setup()`. -/
def sReady : StageSet :=
  ⟨"/stage/123", 1, 1, some "^/afs/", none, true, [], 0, 0, 0, false⟩

/-- The same set after a full `finish()` teardown (`setupFlag = 0`). -/
def sTorn : StageSet :=
  ⟨"/stage/123", 0, 0, some "^/afs/", none, true, [], 0, 0, 0, false⟩

/-- A set whose `setup()` ran and failed (`setupFlag = 1`, `setupOK = 0`). -/
def sDisabled : StageSet :=
  ⟨"", 1, 0, some "^/afs/", none, true, [], 0, 0, 0, false⟩

/-- A stage-in record not yet started. -/
def sfFresh : StagedFile := ⟨some "/data/in", "/stage/in", [], true, false⟩

/-- A stage-in record that has already started. -/
def sfDone : StagedFile := ⟨some "/data/in", "/stage/in", [], true, true⟩

end stageFiles

namespace fileOps

theorem attemptStep_callsOf_le_one (a : Attempt) : (attemptStep a).callsOf ≤ 1 := by
  rcases a with ⟨fs, tro, tn, ur⟩
  unfold attemptStep
  cases fs with
  | none => simp [StepRes.callsOf]
  | some s =>
    cases tro with
    | raiseBefore => simp [StepRes.callsOf]
    | raiseDuring => simp [StepRes.callsOf]
    | done m c =>
      dsimp only
      split
      · simp [StepRes.callsOf]
      · cases tn with
        | none => simp [StepRes.callsOf]
        | some t =>
          dsimp only
          split
          · simp [StepRes.callsOf]
          · split <;> simp [StepRes.callsOf]

theorem copyLoop_calls_le (env : Nat → Attempt) :
    ∀ fuel i rcIn, (copyLoop env fuel i rcIn).calls ≤ fuel := by
  intro fuel
  induction fuel with
  | zero => intro i rcIn; simp [copyLoop]
  | succ f ih =>
    intro i rcIn
    have hstep := attemptStep_callsOf_le_one (env i)
    cases h : attemptStep (env i) with
    | cont rc c =>
      rw [h] at hstep
      have := ih (i+1) rc
      simp only [copyLoop, h]
      simp only [StepRes.callsOf] at hstep
      omega
    | brk c =>
      rw [h] at hstep
      simp only [copyLoop, h]
      simp only [StepRes.callsOf] at hstep
      omega
    | raised c =>
      rw [h] at hstep
      simp only [copyLoop, h]
      simp only [StepRes.callsOf] at hstep
      omega

theorem copyLoop_const_cont (env : Nat → Attempt) (rcC c : Nat) :
    ∀ fuel i rcIn, 1 ≤ i →
      (∀ j, j < fuel → attemptStep (env (i + j)) = .cont rcC c) →
      copyLoop env fuel i rcIn =
        ⟨.exhausted (if fuel = 0 then rcIn else rcC), c * fuel, fuel⟩ := by
  intro fuel
  induction fuel with
  | zero => intro i rcIn hi h; simp [copyLoop]
  | succ f ih =>
    intro i rcIn hi h
    have h0 : attemptStep (env i) = .cont rcC c := by
      have := h 0 (Nat.succ_pos f)
      simpa using this
    have hrec := ih (i+1) rcC (by omega) (fun j hj => by
      have := h (j+1) (by omega)
      rw [show i + (j + 1) = i + 1 + j by omega] at this
      exact this)
    simp only [copyLoop, h0]
    rw [hrec]
    have hi0 : (if i ≠ 0 then 1 else 0) = 1 := by
      simp [show i ≠ 0 by omega]
    rw [hi0]
    rcases f with _ | f' <;> simp [Nat.mul_succ] <;> omega

theorem copyLoop_const_cont_zero (env : Nat → Attempt) (rcC c mt : Nat)
    (hmt : 1 ≤ mt) (h : ∀ j, j < mt → attemptStep (env j) = .cont rcC c) :
    copyLoop env mt 0 0 = ⟨.exhausted rcC, c * mt, mt - 1⟩ := by
  obtain ⟨m, rfl⟩ : ∃ m, mt = m + 1 := ⟨mt - 1, by omega⟩
  have h0 : attemptStep (env 0) = .cont rcC c := h 0 (by omega)
  have hrec := copyLoop_const_cont env rcC c m 1 rcC (by omega) (fun j hj => by
    have := h (j+1) (by omega)
    rw [show (1 : Nat) + j = j + 1 by omega]
    exact this)
  simp only [copyLoop, h0]
  rw [hrec]
  rcases m with _ | m' <;> simp [Nat.mul_succ] <;> omega

theorem verifiedOk_of_brk {a : Attempt} {c : Nat}
    (h : attemptStep a = .brk c) : verifiedOk a := by
  rcases a with ⟨fs, tro, tn, ur⟩
  unfold attemptStep at h
  cases fs with
  | none => simp at h
  | some s =>
    cases tro with
    | raiseBefore => simp at h
    | raiseDuring => simp at h
    | done m c' =>
      dsimp only at h
      split at h
      · simp at h
      · cases tn with
        | none => simp at h
        | some t =>
          dsimp only at h
          split at h
          · simp at h
          · split at h
            · simp at h
            · rename_i hne _
              have ht : t = s := by omega
              subst ht
              exact ⟨by simp, by simp⟩

theorem copyLoop_broke_verified (env : Nat → Attempt) :
    ∀ fuel i rcIn, (copyLoop env fuel i rcIn).res = .broke →
      ∃ j, j < fuel ∧ verifiedOk (env (i + j)) := by
  intro fuel
  induction fuel with
  | zero => intro i rcIn h; simp [copyLoop] at h
  | succ f ih =>
    intro i rcIn h
    cases hstep : attemptStep (env i) with
    | cont rc c =>
      have h' : (copyLoop env f (i+1) rc).res = .broke := by
        simpa [copyLoop, hstep] using h
      obtain ⟨j, hj, hv⟩ := ih (i+1) rc h'
      refine ⟨j+1, by omega, ?_⟩
      rw [show i + (j + 1) = i + 1 + j by omega]
      exact hv
    | brk c =>
      exact ⟨0, by omega, by simpa using verifiedOk_of_brk hstep⟩
    | raised c =>
      exfalso
      simp [copyLoop, hstep] at h

theorem copyLoop_cont_then_brk (env : Nat → Attempt) :
    ∀ k fuel i rcIn, k < fuel →
      (∀ j, j < k → ∃ rc c, attemptStep (env (i + j)) = .cont rc c) →
      (∃ c, attemptStep (env (i + k)) = .brk c) →
      (copyLoop env fuel i rcIn).res = .broke := by
  intro k
  induction k with
  | zero =>
    intro fuel i rcIn hk hcont hbrk
    obtain ⟨f, rfl⟩ : ∃ f, fuel = f + 1 := ⟨fuel - 1, by omega⟩
    obtain ⟨c, hc⟩ := hbrk
    rw [show i + 0 = i from rfl] at hc
    simp [copyLoop, hc]
  | succ m ih =>
    intro fuel i rcIn hk hcont hbrk
    obtain ⟨f, rfl⟩ : ∃ f, fuel = f + 1 := ⟨fuel - 1, by omega⟩
    obtain ⟨rc, c, hc⟩ := hcont 0 (by omega)
    rw [show i + 0 = i from rfl] at hc
    simp only [copyLoop, hc]
    apply ih f (i+1) rc (by omega)
    · intro j hj
      have := hcont (j+1) (by omega)
      rw [show i + (j + 1) = i + 1 + j by omega] at this
      exact this
    · obtain ⟨c', hc'⟩ := hbrk
      refine ⟨c', ?_⟩
      rw [show i + 1 + m = i + (m + 1) by omega]
      exact hc'

theorem attemptStep_of_missing {a : Attempt} (h : a.fromSize = none) :
    attemptStep a = .cont 1 0 := by
  unfold attemptStep
  rw [h]

theorem attemptStep_of_mismatch {a : Attempt} (h : mismatchAttempt a) :
    attemptStep a = .cont 1 1 := by
  obtain ⟨h1, h2, h3, h4⟩ := h
  obtain ⟨s, hs⟩ := Option.isSome_iff_exists.mp h1
  obtain ⟨t, ht⟩ := Option.isSome_iff_exists.mp h3
  rw [hs, ht] at h4
  have hts : t ≠ s := by simpa using h4
  unfold attemptStep
  rw [hs, h2, ht]
  simp [hts]

theorem attemptStep_of_good {a : Attempt} (h : goodAttempt a) :
    attemptStep a = .brk 1 := by
  obtain ⟨h1, h2, h3, h4⟩ := h
  obtain ⟨s, hs⟩ := Option.isSome_iff_exists.mp h1
  have ht : a.tnSize = some s := by rw [h3, hs]
  unfold attemptStep
  rw [hs, h2, ht]
  simp [h4]

theorem copy_implCalls_eq (env : Nat → Attempt) (fromFile toFile : String)
    (mtO : Option Nat) (h : toFile ≠ fromFile) :
    (copy env fromFile toFile mtO).implCalls =
      (copyLoop env (mtO.getD maxtry) 0 0).calls := by
  simp only [copy, if_neg h]
  cases hres : (copyLoop env (mtO.getD maxtry) 0 0).res with
  | exhausted rc =>
    simp only [hres]
    split <;> rfl
  | broke => simp only [hres]
  | raised => simp only [hres]

/-- Claim C3: `fileOps.copy` makes no more than `maxTry` underlying
`impl.copy` attempts (and `maxTry` defaults to `maxtry = 5`); when the
source and destination differ and every attempt within the bound hits the
size-mismatch check, it performs exactly `maxTry` attempts, waits between
consecutive attempts, and returns the failure status 1. -/
theorem copy_attempt_bound (env : Nat → Attempt) (fromFile toFile : String)
    (mt : Nat) :
    (copy env fromFile toFile (some mt)).implCalls ≤ mt ∧
    copy env fromFile toFile none = copy env fromFile toFile (some maxtry) ∧
    (fromFile ≠ toFile → 1 ≤ mt → (∀ i, i < mt → mismatchAttempt (env i)) →
      copy env fromFile toFile (some mt) = ⟨.ok 1, mt, mt - 1⟩) := by
  refine ⟨?_, rfl, ?_⟩
  · by_cases hft : toFile = fromFile
    · simp [copy, hft]
    · rw [copy_implCalls_eq env fromFile toFile (some mt) hft]
      simpa using copyLoop_calls_le env mt 0 0
  · intro hne hmt hmis
    have hsteps : ∀ j, j < mt → attemptStep (env j) = .cont 1 1 :=
      fun j hj => attemptStep_of_mismatch (hmis j hj)
    have hloop := copyLoop_const_cont_zero env 1 1 mt hmt hsteps
    simp only [copy, if_neg (Ne.symm hne), Option.getD_some]
    rw [hloop]
    simp

/-- Witness for C3: with a source of size 5 whose copies persistently come
out at size 3, `fileOps.copy` performs exactly 5 attempts (its bound), waits
4 times, and returns 1. -/
theorem copy_attempt_bound_witness :
    (copy envMis "a" "b" (some 5)).implCalls ≤ 5 ∧
    copy envMis "a" "b" (some 5) = ⟨.ok 1, 5, 4⟩ :=
  ⟨(copy_attempt_bound envMis "a" "b" 5).1,
   (copy_attempt_bound envMis "a" "b" 5).2.2 (by decide) (by decide)
     (fun i _ => (by decide : mismatchAttempt attMis))⟩

/-- Counterexample to C2: with the source missing throughout, the default
`fileOps.copy` does NOT fail immediately — it runs its full attempt bound,
performing 4 backoff waits (never zero) before returning the failure status,
although it never invokes an underlying copy. -/
theorem copy_missing_source_cex :
    copy envMiss "a" "b" none = ⟨.ok 1, 0, 4⟩ ∧ (4 : Nat) ≠ 0 := by
  constructor
  · decide
  · decide

/-- Claim C2 (amended): a missing source never triggers an underlying
backend copy attempt.  In `fileOps.copy` the missing-source check is
repeated on every attempt, with a backoff wait before each attempt after
the first (`maxTry - 1` waits in total), before status 1 is returned.  The
legacy `stageFiles.fileCopy` checks the source once, before its loop, and
fails immediately: status 1, no attempt, no wait. -/
theorem copy_missing_source_behavior :
    (∀ (env : Nat → Attempt) (fromFile toFile : String) (mt : Nat),
      fromFile ≠ toFile → 1 ≤ mt → (∀ i, i < mt → (env i).fromSize = none) →
      copy env fromFile toFile (some mt) = ⟨.ok 1, 0, mt - 1⟩) ∧
    (∀ (fce : stageFiles.FCEnv) (fromFile toFile : String),
      fce.srcSize = none → stageFiles.fileCopy fce fromFile toFile = ⟨1, 0, 0⟩) := by
  constructor
  · intro env fromFile toFile mt hne hmt hmiss
    have hsteps : ∀ j, j < mt → attemptStep (env j) = .cont 1 0 :=
      fun j hj => attemptStep_of_missing (hmiss j hj)
    have hloop := copyLoop_const_cont_zero env 1 0 mt hmt hsteps
    simp only [copy, if_neg (Ne.symm hne), Option.getD_some]
    rw [hloop]
    simp
  · intro fce fromFile toFile hsrc
    simp [stageFiles.fileCopy, hsrc]

/-- Witness for the amended C2, at concrete inputs on both variants. -/
theorem copy_missing_source_behavior_witness :
    copy envMiss "c" "d" (some 3) = ⟨.ok 1, 0, 2⟩ ∧
    stageFiles.fileCopy ⟨none, fun _ => ⟨false⟩⟩ "c" "d" = ⟨1, 0, 0⟩ :=
  ⟨copy_missing_source_behavior.1 envMiss "c" "d" 3 (by decide) (by decide)
     (fun i _ => (by decide : (attMiss).fromSize = none)),
   copy_missing_source_behavior.2 ⟨none, fun _ => ⟨false⟩⟩ "c" "d" (by decide)⟩

/-- Claim C1 (amended, part that holds): in `fileOps.copy`, whenever the
copy returns success (status 0) and source and destination differ, some
attempt within the bound saw `getSize` report the same size for the source
and the written temp file; and a size mismatch is retryable, not fatal: if
the attempts before `k` all mismatch and attempt `k` (within the bound)
verifies cleanly, the copy still returns success.  The staging teardown path
(`stageFiles.copy`) performs no such verification — see the separate
counterexample. -/
theorem copy_size_verified (env : Nat → Attempt) (fromFile toFile : String) :
    (∀ mtO : Option Nat, fromFile ≠ toFile →
      (copy env fromFile toFile mtO).res = .ok 0 →
      ∃ i, i < mtO.getD maxtry ∧ verifiedOk (env i)) ∧
    (∀ k mt : Nat, fromFile ≠ toFile → k < mt →
      (∀ j, j < k → mismatchAttempt (env j)) → goodAttempt (env k) →
      (copy env fromFile toFile (some mt)).res = .ok 0) := by
  constructor
  · intro mtO hne hok
    simp only [copy, if_neg (Ne.symm hne)] at hok
    cases hres : (copyLoop env (mtO.getD maxtry) 0 0).res with
    | exhausted rc =>
      rw [hres] at hok
      by_cases hrc : rc ≠ 0
      · simp [hrc] at hok
      · simp [hrc] at hok
    | raised =>
      rw [hres] at hok
      simp at hok
    | broke =>
      obtain ⟨j, hj, hv⟩ := copyLoop_broke_verified env (mtO.getD maxtry) 0 0 hres
      exact ⟨j, hj, by simpa using hv⟩
  · intro k mt hne hk hmis hgood
    have hbroke : (copyLoop env mt 0 0).res = .broke := by
      apply copyLoop_cont_then_brk env k mt 0 0 hk
      · intro j hj
        exact ⟨1, 1, by simpa using attemptStep_of_mismatch (hmis j hj)⟩
      · exact ⟨1, by simpa using attemptStep_of_good hgood⟩
    simp only [copy, if_neg (Ne.symm hne), Option.getD_some]
    rw [hbroke]

/-- Witness for the amended C1: first attempt mismatches, second verifies;
the copy succeeds and an attempt with matching sizes exists in the bound. -/
theorem copy_size_verified_witness :
    (copy envRetry "a" "b" (some 5)).res = .ok 0 ∧
    ∃ i, i < 5 ∧ verifiedOk (envRetry i) := by
  have h2 := (copy_size_verified envRetry "a" "b").2 1 5 (by decide) (by decide)
    (fun j hj => by
      interval_cases j
      decide)
    (by decide)
  have h1 := (copy_size_verified envRetry "a" "b").1 (some 5) (by decide) h2
  exact ⟨h2, h1⟩

end fileOps

/-- Counterexample to C4: on the xrootd backend the temp name is NOT the
destination plus `.part`; it is the destination name itself. -/
theorem tempName_xrootd_cex :
    xrootdFileOps.tempName "root://h/f" = "root://h/f" ∧
    xrootdFileOps.tempName "root://h/f" ≠ "root://h/f" ++ ".part" := by
  exact ⟨rfl, by decide⟩

/-- Claim C4 (amended): the `.part` temp-name convention holds on the
local-filesystem backend only.  The xrootd backend defines the temp name of
a destination to be the destination itself (and its rename step is a no-op),
so remote copies are written directly under the final name; the dispatching
`fileOps.tempName` therefore appends `.part` exactly for non-`root:`
paths. -/
theorem tempName_by_backend (p : String) :
    fsFileOps.tempName p = p ++ ".part" ∧
    xrootdFileOps.tempName p = p ∧
    fileOps.tempName p = (if isOnXrootd p then p else p ++ ".part") :=
  ⟨rfl, rfl, rfl⟩

namespace stageFiles

/-- Counterexample to C1: a file staged out and torn down toward an xrootd
destination.  `xrdcp` reports success and the destination passes the bare
existence check, so the teardown copy — and with it the whole member
teardown — reports success (status 0); yet the destination holds 3 bytes
while the working copy holds 5.  The teardown path never compares sizes, so
the mismatch is neither detected nor retried. -/
theorem teardown_size_mismatch_cex :
    (stageFiles.copy scShort "/stage/f" "root://srv/f").rc = 0 ∧
    (StagedFile.finishE (fun _ => scShort) true false sfRemote).rc = 0 ∧
    xrShort.srcSize = some 5 ∧ xrShort.destSize = some 3 ∧
    xrShort.destSize ≠ xrShort.srcSize :=
  ⟨by decide, by decide, rfl, rfl, by decide⟩

/-- Counterexample to C5: when the working location occurs twice among the
requested destinations, `list.remove` drops only the first occurrence, and
the location remains a member of the destinations list after construction. -/
theorem stagedFile_self_dest_cex :
    (StagedFile.init "d" none ["d", "d"] true true).destinations = ["d"] ∧
    (StagedFile.init "d" none ["d", "d"] true true).location ∈
      (StagedFile.init "d" none ["d", "d"] true true).destinations := by
  constructor
  · decide
  · decide

/-- Claim C5 (amended): construction removes at most one occurrence of the
working location from the destinations: whenever the location was present,
`cleanup` is forced off and the count drops by exactly one; in particular
the location is absent afterwards when it occurred at most once. -/
theorem stagedFile_self_copy_elision (location : String)
    (source : Option String) (dests : List String) (cleanup autoStart : Bool) :
    (location ∈ dests →
      (StagedFile.init location source dests cleanup autoStart).cleanup = false) ∧
    (dests.count location ≤ 1 →
      location ∉ (StagedFile.init location source dests cleanup autoStart).destinations) ∧
    (location ∈ dests →
      (StagedFile.init location source dests cleanup autoStart).destinations.count location
        = dests.count location - 1) := by
  by_cases h : location ∈ dests
  · simp only [StagedFile.init, if_pos h]
    refine ⟨fun _ => trivial, ?_, fun _ => List.count_erase_self location dests⟩
    intro hle
    have hpos : 0 < dests.count location := List.count_pos_iff.mpr h
    have herase : (dests.erase location).count location = dests.count location - 1 :=
      List.count_erase_self location dests
    have hz : (dests.erase location).count location = 0 := by omega
    exact List.count_eq_zero.mp hz
  · simp only [StagedFile.init, if_neg h]
    exact ⟨fun hm => absurd hm h, fun _ => h, fun hm => absurd hm h⟩

/-- Witness for the amended C5 at a concrete record. -/
theorem stagedFile_self_copy_elision_witness :
    (StagedFile.init "d" none ["x", "d"] true true).cleanup = false ∧
    "d" ∉ (StagedFile.init "d" none ["x", "d"] true true).destinations ∧
    (StagedFile.init "d" none ["x", "d"] true true).destinations.count "d"
      = (["x", "d"] : List String).count "d" - 1 :=
  ⟨(stagedFile_self_copy_elision "d" none ["x", "d"] true true).1 (by decide),
   (stagedFile_self_copy_elision "d" none ["x", "d"] true true).2.1 (by decide),
   (stagedFile_self_copy_elision "d" none ["x", "d"] true true).2.2 (by decide)⟩

/-- Counterexample to C6: `finish("wipe")` on a set whose setup had failed
(`setupOK = 0`) attempts no removal and raises (`_removeDir` returns the
never-assigned local `rc`), instead of removing the directory without
raising as the claim states. -/
theorem finish_wipe_disabled_cex :
    StageSet.finishM fenvQuiet sDisabled "wipe" = .error .nameError ∧
    traceOf (StageSet.finishM fenvQuiet sDisabled "wipe") = [] := by
  constructor
  · decide
  · decide

/-- Claim C6 (amended): `finish("wipe")` performs no copy to any destination
of any member in any state; when setup had succeeded it removes the staging
directory (`os.rmdir`, falling back to a recursive delete) without raising,
reporting an irremovable directory as status 2; when setup had failed it
attempts no removal and raises instead — see the counterexample. -/
theorem finish_wipe_frame (fenv : FinishEnv) (s : StageSet) :
    (∀ src dst, Ev.copyEv src dst ∉ traceOf (StageSet.finishM fenv s "wipe")) ∧
    (s.setupOK ≠ 0 →
      StageSet.finishM fenv s "wipe" =
        .ok ({ s.reset with setupFlag := 0, setupOK := 0 },
             (if fenv.rd.rmdirOk || fenv.rd.rmtreeOk then 0 else 2),
             (if fenv.rd.rmdirOk then [Ev.rmdirEv s.stageDir]
              else [Ev.rmdirEv s.stageDir, Ev.rmtreeEv s.stageDir]))) := by
  constructor
  · intro src dst
    simp only [StageSet.finishM, if_pos rfl]
    unfold StageSet.removeDirM
    by_cases hOK : s.setupOK ≠ 0
    · simp only [if_pos hOK]
      by_cases h1 : fenv.rd.rmdirOk <;> by_cases h2 : fenv.rd.rmtreeOk <;>
        simp [traceOf, h1, h2]
    · simp only [if_neg hOK]
      simp [traceOf]
  · intro hOK
    simp only [StageSet.finishM, if_pos rfl]
    unfold StageSet.removeDirM
    simp only [if_pos hOK]
    by_cases h1 : fenv.rd.rmdirOk <;> by_cases h2 : fenv.rd.rmtreeOk <;>
      simp [h1, h2]

/-- Witness for the amended C6: a ready set, removal succeeding at once. -/
theorem finish_wipe_frame_witness :
    (Ev.copyEv "/stage/f" "/data/f" ∉
      traceOf (StageSet.finishM fenvQuiet sReady "wipe")) ∧
    StageSet.finishM fenvQuiet sReady "wipe" =
      .ok ({ sReady.reset with setupFlag := 0, setupOK := 0 }, 0,
           [Ev.rmdirEv sReady.stageDir]) := by
  have h := finish_wipe_frame fenvQuiet sReady
  refine ⟨h.1 "/stage/f" "/data/f", ?_⟩
  have h2 := h.2 (by decide)
  simpa using h2

/-- Claim C7 (code bug): after a full `finish("")` teardown, `stageIn` and
`stageMod` re-run `self.setup()` and complete normally with a fresh staged
path, but `stageOut` (line 236) calls the nonexistent global `setup()` and
raises `NameError` instead of re-initializing. -/
theorem stage_reuse_after_finish :
    StageSet.finishM fenvQuiet sReady "" =
      .ok (sTorn, 0, [Ev.rmdirEv "/stage/123"]) ∧
    StageSet.stageOutM rFalse sTorn ["f"] = .error .nameError ∧
    (StageSet.stageInM rFalse envSE sTorn "f").2 = "/stage/123/f" ∧
    (StageSet.stageInM rFalse envSE sTorn "f").1.setupOK = 1 ∧
    (StageSet.stageModM rFalse envSE sTorn "f").2 = "/stage/123/f" := by
  refine ⟨?_, ?_, ?_, ?_, ?_⟩ <;> decide

/-- Claim C8: with the setup flag set, when staging is disabled
(`setupOK ≠ 1`) or the exclude-out pattern matches the primary path,
`stageOut` returns the primary path unchanged yet still appends a
`StagedFile` with `cleanup = False` whose destinations are the extra ones,
incrementing `numOut`; under the disabled or exclude-in conditions,
`stageIn` returns its input unchanged and appends nothing; neither call
raises. -/
theorem stage_passthrough_disabled (r : String → String → Bool)
    (env : SetupEnv) (s : StageSet) (primary inFile : String)
    (extras : List String) (hflag : s.setupFlag = 1) :
    ((s.setupOK ≠ 1 ∨ excludeMatches r s.excludeOut primary = true) →
      StageSet.stageOutM r s (primary :: extras) =
        .ok ({ s with
                stagedFiles := s.stagedFiles ++ [⟨none, primary, extras, false, true⟩],
                numOut := s.numOut + 1 }, primary)) ∧
    ((s.setupOK ≠ 1 ∨ excludeMatches r s.excludeIn inFile = true) →
      StageSet.stageInM r env s inFile = (s, inFile)) := by
  have hflag' : ¬ (s.setupFlag ≠ 1) := by simp [hflag]
  have hinit : StagedFile.init primary none (primary :: extras) false true
      = ⟨none, primary, extras, false, true⟩ := by
    simp [StagedFile.init]
  constructor
  · intro hcase
    rcases hcase with h | h
    · simp [StageSet.stageOutM, hflag', if_pos h, hinit]
    · by_cases h1 : s.setupOK ≠ 1
      · simp [StageSet.stageOutM, hflag', h1, hinit]
      · simp [StageSet.stageOutM, hflag', h1, h, hinit]
  · intro hcase
    rcases hcase with h | h
    · simp [StageSet.stageInM, hflag', if_pos h]
    · by_cases h1 : s.setupOK ≠ 1
      · simp [StageSet.stageInM, hflag', h1]
      · simp [StageSet.stageInM, hflag', h1, h]

/-- Witness for C8: a set whose setup failed still books the extra
destination on `stageOut` and passes `stageIn` through untouched. -/
theorem stage_passthrough_disabled_witness :
    StageSet.stageOutM rFalse sDisabled ["p", "x"] =
      .ok ({ sDisabled with
              stagedFiles := sDisabled.stagedFiles ++ [⟨none, "p", ["x"], false, true⟩],
              numOut := sDisabled.numOut + 1 }, "p") ∧
    StageSet.stageInM rFalse envSE sDisabled "q" = (sDisabled, "q") := by
  have h := stage_passthrough_disabled rFalse envSE sDisabled "p" "q" ["x"]
    (by decide)
  exact ⟨h.1 (Or.inl (by decide)), h.2 (Or.inl (by decide))⟩

theorem startE_started (rc : Nat) (sf : StagedFile) :
    ((StagedFile.startE rc sf).1).started = true := by
  unfold StagedFile.startE
  split <;> rfl

theorem stagedFile_started_update (sf : StagedFile) (h : sf.started = true) :
    { sf with started := true } = sf := by
  cases sf
  simp_all

theorem startE_of_started (rc : Nat) (sf : StagedFile) (h : sf.started = true) :
    StagedFile.startE rc sf = (sf, 0, false) := by
  unfold StagedFile.startE
  have hguard : (truthyStr sf.source && (sf.location != sf.source.getD "")
      && !sf.started) = false := by
    simp [h]
  simp only [hguard]
  simp [stagedFile_started_update sf h]

theorem startN_of_started (rcs : Nat → Nat) (sf : StagedFile)
    (h : sf.started = true) :
    ∀ n, StagedFile.startN rcs sf n = (sf, 0) := by
  intro n
  induction n generalizing rcs with
  | zero => rfl
  | succ m ih =>
    simp [StagedFile.startN, startE_of_started (rcs 0) sf h,
      ih (fun i => rcs (i+1))]

/-- Claim C9: `start()` is idempotent: over any number of calls the
underlying stage-in copy runs at most once; it never runs again once
`started` is set, and any call leaves `started` set. -/
theorem start_idempotent (rcs : Nat → Nat) (sf : StagedFile) (n : Nat) :
    (StagedFile.startN rcs sf n).2 ≤ 1 ∧
    (sf.started = true → (StagedFile.startN rcs sf n).2 = 0) ∧
    (1 ≤ n → ((StagedFile.startN rcs sf n).1).started = true) := by
  refine ⟨?_, ?_, ?_⟩
  · cases n with
    | zero => simp [StagedFile.startN]
    | succ m =>
      simp only [StagedFile.startN]
      have h1 : ((StagedFile.startE (rcs 0) sf).1).started = true :=
        startE_started _ _
      rw [startN_of_started (fun i => rcs (i+1)) _ h1 m]
      cases hdid : (StagedFile.startE (rcs 0) sf).2.2 <;> simp
  · intro h
    rw [startN_of_started rcs sf h n]
  · intro hn
    obtain ⟨m, rfl⟩ : ∃ m, n = m + 1 := ⟨n - 1, by omega⟩
    simp only [StagedFile.startN]
    have h1 : ((StagedFile.startE (rcs 0) sf).1).started = true :=
      startE_started _ _
    rw [startN_of_started (fun i => rcs (i+1)) _ h1 m]
    exact h1

/-- Witness for C9 at concrete records: three calls on a fresh record copy
at most once and leave it started; three calls on an already-started record
copy nothing. -/
theorem start_idempotent_witness :
    (StagedFile.startN (fun _ => 0) sfFresh 3).2 ≤ 1 ∧
    (StagedFile.startN (fun _ => 0) sfDone 3).2 = 0 ∧
    ((StagedFile.startN (fun _ => 0) sfFresh 3).1).started = true :=
  ⟨(start_idempotent (fun _ => 0) sfFresh 3).1,
   (start_idempotent (fun _ => 0) sfDone 3).2.1 (by decide),
   (start_idempotent (fun _ => 0) sfFresh 3).2.2 (by decide)⟩

/-- Counterexample to C10: on a torn-down set (setup flag cleared by a full
`finish`), `stageOut()` with no arguments does not return the empty string:
line 236 raises `NameError` before the empty-argument guard is reached. -/
theorem stageOut_noargs_torn_cex :
    StageSet.stageOutM rFalse sTorn [] = .error .nameError ∧
    StageSet.stageOutM rFalse sTorn [] ≠ .ok (sTorn, "") := by
  constructor
  · decide
  · decide

/-- Claim C10 (amended): whenever the setup flag is set (every reachable
state except after a full teardown), `stageOut()` with no arguments returns
the empty string and leaves the set unchanged — no member appended, no
counter incremented, no exception. -/
theorem stageOut_noargs (r : String → String → Bool) (s : StageSet)
    (hflag : s.setupFlag = 1) :
    StageSet.stageOutM r s [] = .ok (s, "") := by
  have hflag' : ¬ (s.setupFlag ≠ 1) := by simp [hflag]
  simp [StageSet.stageOutM, hflag']

/-- Witness for the amended C10 on a ready set. -/
theorem stageOut_noargs_witness :
    StageSet.stageOutM rFalse sReady [] = .ok (sReady, "") :=
  stageOut_noargs rFalse sReady (by decide)

end stageFiles

end GPL
